import Mathlib

/-!
Shallow embedding of the payment-triggered settlement engine of the
noble-coin-launch repository: the M-PESA callback receiver
(`supabase/functions/mpesa-callback/index.ts`), the STK-push phone
normalization (`supabase/functions/mpesa-stk-push/index.ts`), and the
client-side trade initiation and reconciliation polling
(`src/pages/CoinDetail.tsx`).

Database rows are modelled as Lean structures over `Nat` identifiers and
rational amounts/prices; the supabase tables become lists of rows inside a
single `DB` state record, and each handler becomes a pure function from the
`DB` state (plus the request payload) to the new `DB` state and its HTTP
response.  Numeric amounts use `ℚ` (exact arithmetic; the source operates on
JavaScript numbers, but every claim under study is about exact algebraic
relationships, not rounding).
-/

namespace NobleCoin

/-- Transaction lifecycle states.  In the source the `transactions.status`
column is a free-form string; these five values are the ones the spec names
(`timeout` is listed by the spec but is never written by any code path). -/
inductive TxStatus where
  | pending
  | stk_sent
  | completed
  | failed
  | timeout
  deriving DecidableEq, Repr

/-- Buy or sell intent (`transactions.type`). -/
inductive TxKind where
  | buy
  | sell
  deriving DecidableEq, Repr

/-- A row of the `transactions` table (fields the settlement engine touches).
`mpesa_receipt` is nullable in the schema; the STK-push function stores the
gateway's `CheckoutRequestID` in it, and the callback overwrites it with the
extracted receipt number. -/
structure Transaction where
  id : Nat
  user_id : Nat
  coin_id : Nat
  kind : TxKind
  amount : ℚ
  price_per_coin : ℚ
  total_value : ℚ
  status : TxStatus
  mpesa_receipt : Option String
  deriving DecidableEq, Repr

/-- A row of the `holdings` table. -/
structure Holding where
  id : Nat
  user_id : Nat
  coin_id : Nat
  amount : ℚ
  average_buy_price : ℚ
  deriving DecidableEq, Repr

/-- A row of the `coins` table (aggregate fields the settlement engine
touches).  `price` exists in the schema and is read by the UI, but the
callback handler never updates it. -/
structure Coin where
  id : Nat
  circulating_supply : ℚ
  holders_count : Nat
  price : ℚ
  deriving DecidableEq, Repr

/-- The database state visible to the settlement engine.  `commissions`
models the spec's "Commission record" table: no such table exists in the
repository's schema (`src/integrations/supabase/types.ts`) and no code path
writes one, so the list records the transaction ids for which a commission
was recorded — it stays empty under every modelled operation. -/
structure DB where
  transactions : List Transaction
  holdings : List Holding
  coins : List Coin
  commissions : List Nat
  deriving DecidableEq, Repr

/-- One `Name`/`Value` entry of the callback's `CallbackMetadata.Item` list. -/
structure MetaItem where
  name : String
  value : String
  deriving DecidableEq, Repr

/-- The `Body.stkCallback` object of an M-PESA callback payload.
`callbackMetadata = none` models an absent `CallbackMetadata`/`Item` list. -/
structure StkCallback where
  checkoutRequestID : String
  resultCode : Int
  callbackMetadata : Option (List MetaItem)
  deriving DecidableEq, Repr

/-- The acknowledgement envelope returned to the provider. -/
structure Ack where
  resultCode : Int
  resultDesc : String
  deriving DecidableEq, Repr

/-- `{ ResultCode: 0, ResultDesc: "Accepted" }` — the body the callback
function returns on every path (invalid structure, unknown transaction,
success, failure, and the catch-all). -/
def ackAccepted : Ack := { resultCode := 0, resultDesc := "Accepted" }

/-- `supabase.from("transactions").select("*").eq("mpesa_receipt", cid).maybeSingle()` —
lookup of the transaction whose stored receipt equals the payload's
`CheckoutRequestID`. -/
def findTxByReceipt (txs : List Transaction) (cid : String) : Option Transaction :=
  txs.find? (fun t => decide (t.mpesa_receipt = some cid))

/-- `supabase.from("holdings").select("*").eq("user_id", u).eq("coin_id", c).maybeSingle()`. -/
def findHolding (hs : List Holding) (u c : Nat) : Option Holding :=
  hs.find? (fun h => decide (h.user_id = u ∧ h.coin_id = c))

/-- `supabase.from("coins").select(...).eq("id", c).single()`. -/
def findCoin (cs : List Coin) (c : Nat) : Option Coin :=
  cs.find? (fun k => decide (k.id = c))

/-- The metadata-extraction loop of the success branch: starting from
`let mpesaReceiptNumber = ""`, each `Item` named `MpesaReceiptNumber`
overwrites the accumulator; an absent metadata list leaves `""`. -/
def extractReceipt (md : Option (List MetaItem)) : String :=
  match md with
  | none => ""
  | some items =>
      items.foldl (fun acc it => if it.name = "MpesaReceiptNumber" then it.value else acc) ""

/-- Fresh id for an inserted holding row (the source lets the database
assign it; any id not already present keeps the model faithful). -/
def freshHoldingId (hs : List Holding) : Nat :=
  hs.foldl (fun m h => max m h.id) 0 + 1

/-- The success branch of the callback handler (`ResultCode === 0`):
mark the transaction `completed` and overwrite `mpesa_receipt` with the
extracted receipt, upsert the holding (weighted-average merge or fresh
insert), then re-read the coin and update its circulating supply and
holder count (counted over the post-upsert holdings with `amount > 0`).
The coin's `price` is not touched and no commission is recorded, exactly
as in the source. -/
def settleSuccess (db : DB) (tx : Transaction) (receipt : String) : DB :=
  let txs := db.transactions.map fun t =>
    if t.id = tx.id then { t with status := TxStatus.completed, mpesa_receipt := some receipt } else t
  let holdings :=
    match findHolding db.holdings tx.user_id tx.coin_id with
    | some h =>
        db.holdings.map fun g =>
          if g.id = h.id then
            { g with
              amount := h.amount + tx.amount,
              average_buy_price :=
                (h.average_buy_price * h.amount + tx.price_per_coin * tx.amount) /
                  (h.amount + tx.amount) }
          else g
    | none =>
        db.holdings ++
          [{ id := freshHoldingId db.holdings, user_id := tx.user_id,
             coin_id := tx.coin_id, amount := tx.amount,
             average_buy_price := tx.price_per_coin }]
  let coins :=
    match findCoin db.coins tx.coin_id with
    | some c =>
        let holdersCount :=
          holdings.countP (fun h => decide (h.coin_id = tx.coin_id ∧ 0 < h.amount))
        db.coins.map fun k =>
          if k.id = tx.coin_id then
            { k with circulating_supply := c.circulating_supply + tx.amount,
                     holders_count := holdersCount }
          else k
    | none => db.coins
  { db with transactions := txs, holdings := holdings, coins := coins }

/-- The whole callback handler of `supabase/functions/mpesa-callback/index.ts`.
`body = none` models a request whose JSON lacks `Body.stkCallback` (or fails
to parse, which the catch-all turns into the same acknowledgement with no
mutation).  Every branch returns `ackAccepted`. -/
def handleCallback (db : DB) (body : Option StkCallback) : Ack × DB :=
  match body with
  | none => (ackAccepted, db)
  | some cb =>
      match findTxByReceipt db.transactions cb.checkoutRequestID with
      | none => (ackAccepted, db)
      | some tx =>
          if cb.resultCode = 0 then
            (ackAccepted, settleSuccess db tx (extractReceipt cb.callbackMetadata))
          else
            (ackAccepted,
              { db with transactions := db.transactions.map fun t =>
                  if t.id = tx.id then { t with status := TxStatus.failed } else t })

/-- `startsWith` on the underlying character lists (Lean's byte-position
`String.startsWith` does not reduce in the kernel). -/
def charsStartWith (cs pat : List Char) : Bool :=
  decide (cs.take pat.length = pat)

/-- Phone normalization of `supabase/functions/mpesa-stk-push/index.ts`:
`phone.replace(/\s+/g, "").replace(/^\+/, "")`, then `0…` becomes `254…`,
anything not already starting with `254` gets `254` prepended. -/
def formatPhone (phone : String) : String :=
  let stripped := phone.data.filter (fun c => !c.isWhitespace)
  let p := if charsStartWith stripped ['+'] then stripped.drop 1 else stripped
  let q :=
    if charsStartWith p ['0'] then ['2', '5', '4'] ++ p.drop 1
    else if !(charsStartWith p ['2', '5', '4']) then ['2', '5', '4'] ++ p
    else p
  ⟨q⟩

/-- Initial delay before the first status check of the trade poller
(`setTimeout(checkStatus, 5000)` in `startPolling`). -/
def firstCheckDelayMs : Nat := 5000

/-- Delay between subsequent status checks of the trade poller
(`setTimeout(checkStatus, 3000)`). -/
def retryDelayMs : Nat := 3000

/-- What one `checkStatus` invocation of `startPolling`
(`src/pages/CoinDetail.tsx`) does after reading the transaction's status:
stop with success on `completed`, stop with failure on `failed`, otherwise
schedule another check.  The source's `checkStatus` only `select`s the
status and updates local UI state — it performs no database write. -/
inductive PollStep where
  | stopSuccess
  | stopFailure
  | scheduleAgain (delayMs : Nat)
  deriving DecidableEq, Repr

/-- One poll attempt: read the transaction's current status from the given
database snapshot and decide what `checkStatus` does.  A missing
transaction (or any non-terminal status) falls to the `else` branch, which
re-schedules. -/
def checkStatus (db : DB) (txId : Nat) : PollStep :=
  match (db.transactions.find? (fun t => decide (t.id = txId))).map Transaction.status with
  | some TxStatus.completed => PollStep.stopSuccess
  | some TxStatus.failed => PollStep.stopFailure
  | _ => PollStep.scheduleAgain retryDelayMs

/-- Outcome of running the polling loop for a given number of scheduled
checks.  There is no constructor for a timeout outcome because
`startPolling` has none: no attempt counter, no deadline, no `timeout`
status write. -/
inductive PollResult where
  | success
  | failure
  | stillPolling
  deriving DecidableEq, Repr

/-- Run `startPolling`'s loop through `n` scheduled checks, observing the
database snapshot `dbs k` at the `k`-th check (the database changes only
through the callback handler; the poller itself never writes). -/
def pollOutcome (dbs : Nat → DB) (txId : Nat) : Nat → PollResult
  | 0 => PollResult.stillPolling
  | n + 1 =>
      match checkStatus (dbs 0) txId with
      | PollStep.stopSuccess => PollResult.success
      | PollStep.stopFailure => PollResult.failure
      | PollStep.scheduleAgain _ => pollOutcome (fun k => dbs (k + 1)) txId n

/-- Fresh id for an inserted transaction row. -/
def freshTxId (ts : List Transaction) : Nat :=
  ts.foldl (fun m t => max m t.id) 0 + 1

/-- The transaction-creating part of `handleBuy` in
`src/pages/CoinDetail.tsx`: validate the phone, then insert a `pending`
buy transaction snapshotting the coin's current price (`total_value =
amount × price`).  The subsequent STK-push invocation and UI state are
external to the database model; no other table is touched. -/
def handleBuy (db : DB) (userId coinId : Nat) (amount price : ℚ) (phone : String) : DB :=
  let formatted := phone.data.filter (fun c => !c.isWhitespace)
  let formatted := if charsStartWith formatted ['+'] then formatted.drop 1 else formatted
  if formatted.length < 9 then db
  else
    { db with transactions := db.transactions ++
        [{ id := freshTxId db.transactions, user_id := userId, coin_id := coinId,
           kind := TxKind.buy, amount := amount, price_per_coin := price,
           total_value := amount * price, status := TxStatus.pending,
           mpesa_receipt := none }] }

/-- `handleSell` in `src/pages/CoinDetail.tsx` (the sell path): after the
balance and phone checks, insert a `pending` sell transaction and then
immediately deduct the sold amount from the caller's holding —
`delete` when the remainder is ≤ 0, otherwise `update { amount }`.
`userHolding` is the client's fetched holding amount. -/
def handleSell (db : DB) (userId coinId : Nat) (amount price userHolding : ℚ)
    (phone : String) : DB :=
  if amount > userHolding then db
  else if phone.data.length < 10 then db
  else
    let db1 : DB := { db with transactions := db.transactions ++
        [{ id := freshTxId db.transactions, user_id := userId, coin_id := coinId,
           kind := TxKind.sell, amount := amount, price_per_coin := price,
           total_value := amount * price, status := TxStatus.pending,
           mpesa_receipt := none }] }
    let newAmount := userHolding - amount
    if newAmount ≤ 0 then
      { db1 with holdings :=
          db1.holdings.filter (fun h => !decide (h.user_id = userId ∧ h.coin_id = coinId)) }
    else
      { db1 with holdings := db1.holdings.map fun h =>
          if h.user_id = userId ∧ h.coin_id = coinId then { h with amount := newAmount } else h }

/-! ## Concrete fixtures used by the closed theorems -/

/-- Fixture constructor for transaction rows (`tv` is the snapshotted
`total_value`, which trade creation sets to amount × price). -/
def mkTx (id u c : Nat) (k : TxKind) (a p tv : ℚ) (st : TxStatus) (r : Option String) :
    Transaction :=
  { id := id, user_id := u, coin_id := c, kind := k, amount := a,
    price_per_coin := p, total_value := tv, status := st, mpesa_receipt := r }

/-- Fixture constructor for coin rows. -/
def mkCoin (id : Nat) (supply : ℚ) (holders : Nat) (price : ℚ) : Coin :=
  { id := id, circulating_supply := supply, holders_count := holders, price := price }

/-- Fixture constructor for holding rows. -/
def mkHolding (id u c : Nat) (a p : ℚ) : Holding :=
  { id := id, user_id := u, coin_id := c, amount := a, average_buy_price := p }

/-- Fixture constructor for database states. -/
def mkDB (ts : List Transaction) (hs : List Holding) (cs : List Coin) : DB :=
  { transactions := ts, holdings := hs, coins := cs, commissions := [] }

/-- Fixture constructor for success payloads whose only metadata item is the
receipt number. -/
def mkSuccessPayload (cid receipt : String) : StkCallback :=
  { checkoutRequestID := cid, resultCode := 0,
    callbackMetadata := some [{ name := "MpesaReceiptNumber", value := receipt }] }

/-- An empty database. -/
def db0 : DB := mkDB [] [] []

/-- C1 fixture: a transaction already in the terminal state `failed`, still
carrying its original gateway reference in `mpesa_receipt`. -/
def dbC1 : DB :=
  mkDB [mkTx 1 7 3 TxKind.buy 50 2 100 TxStatus.failed (some "ws_CO_1")] []
    [mkCoin 3 1000 0 1]

/-- C1 fixture: a success callback for the same `CheckoutRequestID`. -/
def pC1 : StkCallback := mkSuccessPayload "ws_CO_1" "QCX777"

/-- C2 fixture: one `stk_sent` transaction awaiting its callback. -/
def dbC2 : DB :=
  mkDB [mkTx 1 7 3 TxKind.buy 50 2 100 TxStatus.stk_sent (some "ws_CO_2")] []
    [mkCoin 3 1000 0 1]

/-- C2 fixture: a success payload whose metadata receipt number equals the
`CheckoutRequestID`, so completing the transaction rewrites `mpesa_receipt`
to the very value the lookup uses. -/
def pC2 : StkCallback := mkSuccessPayload "ws_CO_2" "ws_CO_2"

/-- C3 fixture: a transaction that stays `stk_sent` forever (no callback
ever arrives). -/
def dbC3 : DB :=
  mkDB [mkTx 1 7 3 TxKind.buy 50 2 100 TxStatus.stk_sent (some "ws_CO_3")] [] []

/-- C4 fixture: a first-time buyer's `stk_sent` transaction. -/
def dbC4 : DB :=
  mkDB [mkTx 1 7 3 TxKind.buy 50 2 100 TxStatus.stk_sent (some "ws_CO_4")] []
    [mkCoin 3 1000 0 1]

/-- C4 fixture: a plain success callback for `dbC4`. -/
def pC4 : StkCallback := mkSuccessPayload "ws_CO_4" "QDX400"

/-- C5 fixture: a user holding 100 units of coin 3. -/
def dbC5 : DB :=
  mkDB [] [mkHolding 1 7 3 100 10] [mkCoin 3 1000 1 1]

/-- C10 fixture: one `stk_sent` transaction. -/
def dbC10 : DB :=
  mkDB [mkTx 1 7 3 TxKind.buy 50 2 100 TxStatus.stk_sent (some "ws_CO_5")] []
    [mkCoin 3 1000 0 1]

/-- C10 fixture: a success payload whose metadata receipt equals the
checkout request id. -/
def pC10 : StkCallback := mkSuccessPayload "ws_CO_5" "ws_CO_5"

/-- Fixture constructor for failure/cancellation payloads (no metadata). -/
def mkFailPayload (cid : String) (rc : Int) : StkCallback :=
  { checkoutRequestID := cid, resultCode := rc, callbackMetadata := none }

/-- C6 fixture: an `stk_sent` transaction with an existing holding and coin,
about to receive a failure callback. -/
def dbC6 : DB :=
  mkDB [mkTx 1 7 3 TxKind.buy 50 2 100 TxStatus.stk_sent (some "ws_CO_6")]
    [mkHolding 1 7 3 5 2] [mkCoin 3 1000 1 1]

/-- C6 fixture: a cancellation callback (`ResultCode` 1032). -/
def pC6 : StkCallback := mkFailPayload "ws_CO_6" 1032

/-- C2 witness fixture: an `stk_sent` transaction. -/
def dbW2 : DB :=
  mkDB [mkTx 1 7 3 TxKind.buy 50 2 100 TxStatus.stk_sent (some "ws_CO_20")] []
    [mkCoin 3 1000 0 1]

/-- C2 witness fixture: a success payload with an ordinary receipt number,
different from the checkout request id. -/
def pW2 : StkCallback := mkSuccessPayload "ws_CO_20" "QWX200"

/-- C8 fixture: a buy of 100 units at price 20, by a user already holding
100 units bought at average price 10. -/
def dbC8 : DB :=
  mkDB [mkTx 1 7 3 TxKind.buy 100 20 2000 TxStatus.stk_sent (some "ws_CO_8")]
    [mkHolding 1 7 3 100 10] [mkCoin 3 1000 1 1]

/-- C8 fixture: the success callback for `dbC8`. -/
def pC8 : StkCallback := mkSuccessPayload "ws_CO_8" "QEX800"

/-- C10 witness fixture: an `stk_sent` transaction. -/
def dbW10 : DB :=
  mkDB [mkTx 1 7 3 TxKind.buy 50 2 100 TxStatus.stk_sent (some "ws_CO_30")] []
    [mkCoin 3 1000 0 1]

/-- C10 witness fixture: a success payload with an ordinary receipt number. -/
def pW10 : StkCallback := mkSuccessPayload "ws_CO_30" "QZX300"

/-! ## Shared lemmas -/

/-- `checkStatus` can only stop on a terminal status or re-schedule after the
fixed 3-second delay; there is no other behaviour. -/
lemma checkStatus_cases (db : DB) (txId : Nat) :
    checkStatus db txId = PollStep.stopSuccess ∨
    checkStatus db txId = PollStep.stopFailure ∨
    checkStatus db txId = PollStep.scheduleAgain retryDelayMs := by
  unfold checkStatus
  split <;> simp

/-- Two members of a list satisfying a predicate and differing as values
force the predicate count to be at least two. -/
lemma two_le_countP {α : Type} {l : List α} {p : α → Bool} {a b : α}
    (ha : a ∈ l) (hpa : p a) (hb : b ∈ l) (hpb : p b) (hab : a ≠ b) :
    2 ≤ l.countP p := by
  induction l with
  | nil => cases ha
  | cons x xs ih =>
      rcases List.mem_cons.mp ha with rfl | ha'
      · rcases List.mem_cons.mp hb with rfl | hb'
        · exact absurd rfl hab
        · have h1 : 0 < xs.countP p := List.countP_pos_iff.mpr ⟨b, hb', hpb⟩
          rw [List.countP_cons, if_pos hpa]
          omega
      · rcases List.mem_cons.mp hb with rfl | hb'
        · have h1 : 0 < xs.countP p := List.countP_pos_iff.mpr ⟨a, ha', hpa⟩
          rw [List.countP_cons, if_pos hpb]
          omega
        · have h2 := ih ha' hb'
          rw [List.countP_cons]
          split <;> omega

/-- After the success branch overwrites the matched transaction's
`mpesa_receipt` with a receipt different from the `CheckoutRequestID`, the
lookup by that `CheckoutRequestID` finds nothing — provided the reference
matched at most one transaction to begin with. -/
lemma findTxByReceipt_after_overwrite (l : List Transaction) (cid r : String)
    (tx : Transaction)
    (huniq : l.countP (fun t => decide (t.mpesa_receipt = some cid)) ≤ 1)
    (hfind : findTxByReceipt l cid = some tx)
    (hne : r ≠ cid) :
    findTxByReceipt
      (l.map fun t => if t.id = tx.id
        then { t with status := TxStatus.completed, mpesa_receipt := some r } else t)
      cid = none := by
  have hfind' : l.find? (fun t => decide (t.mpesa_receipt = some cid)) = some tx := hfind
  have htx_mem : tx ∈ l := List.mem_of_find?_eq_some hfind'
  have htx_p := List.find?_some hfind'
  rw [findTxByReceipt, List.find?_eq_none]
  intro y hy
  rcases List.mem_map.mp hy with ⟨t, ht, rfl⟩
  by_cases hid : t.id = tx.id
  · simp [hid, hne]
  · rw [if_neg hid]
    simp only [decide_eq_true_eq]
    intro hp
    have htne : t ≠ tx := fun hcontra => hid (by rw [hcontra])
    have h2 := two_le_countP (p := fun t => decide (t.mpesa_receipt = some cid))
      ht (by simpa using hp) htx_mem htx_p htne
    omega

/-! ## Claim theorems -/

/-- C9: phone-number normalization maps `0712345678` to `254712345678`,
maps `+254712345678` to `254712345678`, and leaves `254712345678`
unchanged. -/
theorem c9_phone_normalization :
    formatPhone "0712345678" = "254712345678" ∧
    formatPhone "+254712345678" = "254712345678" ∧
    formatPhone "254712345678" = "254712345678" := by
  decide

/-- C1: evaluation of the callback handler at the failing input.  The
transaction of `dbC1` is already in the terminal state `failed`, yet a
success callback that finds it by its stored `CheckoutRequestID` moves it
to `completed` and applies the full ledger mutation (holding created, coin
supply credited): the transition is an unconditional update keyed on the
transaction id, with no `WHERE status = 'stk_sent'` guard. -/
theorem c1_terminal_state_not_guarded :
    dbC1.transactions.map Transaction.status = [TxStatus.failed] ∧
    (handleCallback dbC1 (some pC1)).2.transactions.map Transaction.status
      = [TxStatus.completed] ∧
    (handleCallback dbC1 (some pC1)).2.holdings
      = [{ id := 1, user_id := 7, coin_id := 3, amount := 50, average_buy_price := 2 }] ∧
    (handleCallback dbC1 (some pC1)).2.coins.map Coin.circulating_supply = [1050] := by
  simp [handleCallback, settleSuccess, findTxByReceipt, findHolding, findCoin, extractReceipt, freshHoldingId, freshTxId, handleSell, dbC1, pC1, dbC2, pC2, dbC4, pC4, dbC5, mkDB, mkTx, mkCoin, mkHolding, mkSuccessPayload, ackAccepted]
  norm_num

/-- C2 counterexample: handling the payload `pC2` (whose metadata receipt
number equals the `CheckoutRequestID`) twice credits the ledger twice —
the holding grows from 50 to 100 and the coin supply from 1050 to 1100 —
so handling is not idempotent for every payload. -/
theorem c2_double_settlement_counterexample :
    (handleCallback dbC2 (some pC2)).2.holdings.map Holding.amount = [50] ∧
    (handleCallback (handleCallback dbC2 (some pC2)).2 (some pC2)).2.holdings.map
      Holding.amount = [100] ∧
    (handleCallback dbC2 (some pC2)).2.coins.map Coin.circulating_supply = [1050] ∧
    (handleCallback (handleCallback dbC2 (some pC2)).2 (some pC2)).2.coins.map
      Coin.circulating_supply = [1100] := by
  simp [handleCallback, settleSuccess, findTxByReceipt, findHolding, findCoin, extractReceipt, freshHoldingId, freshTxId, handleSell, dbC1, pC1, dbC2, pC2, dbC4, pC4, dbC5, mkDB, mkTx, mkCoin, mkHolding, mkSuccessPayload, ackAccepted]
  norm_num

/-- C3 counterexample: on a transaction that remains `stk_sent`, the trade
poller is still scheduling checks after 41 attempts (one more than the
40-attempt budget the repository's other pollers use), each check merely
re-scheduling after the fixed 3-second delay; no attempt bound is ever hit
and no `timeout` transition exists. -/
theorem c3_unbounded_polling_counterexample :
    pollOutcome (fun _ => dbC3) 1 41 = PollResult.stillPolling ∧
    checkStatus dbC3 1 = PollStep.scheduleAgain retryDelayMs := by
  decide

/-- C4 counterexample: settling the completed buy of `dbC4` increments the
coin's circulating supply (1000 to 1050) but leaves the coin's `price`
exactly as it was and records no commission — the commissions table stays
empty, not "exactly one record". -/
theorem c4_no_price_no_commission_counterexample :
    (handleCallback dbC4 (some pC4)).2.coins.map Coin.circulating_supply = [1050] ∧
    (handleCallback dbC4 (some pC4)).2.coins.map Coin.price = [1] ∧
    dbC4.coins.map Coin.price = [1] ∧
    (handleCallback dbC4 (some pC4)).2.commissions = [] := by
  simp [handleCallback, settleSuccess, findTxByReceipt, findHolding, findCoin, extractReceipt, freshHoldingId, freshTxId, handleSell, dbC1, pC1, dbC2, pC2, dbC4, pC4, dbC5, mkDB, mkTx, mkCoin, mkHolding, mkSuccessPayload, ackAccepted]
  norm_num

/-- C5 counterexample: selling 40 of a 100-unit holding inserts a `pending`
sell transaction and, in the same UI action, immediately rewrites the
holding from 100 to 60 — a trade-initiation path mutating the Holding
directly while the transaction is still `pending`. -/
theorem c5_sell_mutates_holding_counterexample :
    (handleSell dbC5 7 3 40 2 100 "0712345678").transactions.map Transaction.status
      = [TxStatus.pending] ∧
    dbC5.holdings.map Holding.amount = [100] ∧
    (handleSell dbC5 7 3 40 2 100 "0712345678").holdings.map Holding.amount = [60] := by
  simp [handleCallback, settleSuccess, findTxByReceipt, findHolding, findCoin, extractReceipt, freshHoldingId, freshTxId, handleSell, dbC1, pC1, dbC2, pC2, dbC4, pC4, dbC5, mkDB, mkTx, mkCoin, mkHolding, mkSuccessPayload, ackAccepted]
  norm_num

/-- C10 counterexample: processing `pC10` overwrites the transaction's
`mpesa_receipt` with the extracted receipt number, but because that number
equals the original `CheckoutRequestID` the transaction can still be looked
up by its original external reference afterwards. -/
theorem c10_still_findable_counterexample :
    (handleCallback dbC10 (some pC10)).2.transactions.map Transaction.mpesa_receipt
      = [some "ws_CO_5"] ∧
    findTxByReceipt (handleCallback dbC10 (some pC10)).2.transactions "ws_CO_5"
      ≠ none := by
  decide

/-- C3 (amended): after the initial 5-second delay the trade poller re-checks
every 3 seconds indefinitely — it is still polling after `n` scheduled checks
exactly when none of the first `n` observed statuses was `completed` or
`failed`; there is no attempt bound, the poller performs no writes
(`checkStatus` is a read-only function of the database snapshot), and no
`timeout` transition exists in the loop. -/
theorem c3_amended_poll_characterization (dbs : Nat → DB) (txId n : Nat) :
    pollOutcome dbs txId n = PollResult.stillPolling ↔
      ∀ k < n, checkStatus (dbs k) txId = PollStep.scheduleAgain retryDelayMs := by
  induction n generalizing dbs with
  | zero => simp [pollOutcome]
  | succ n ih =>
      rcases checkStatus_cases (dbs 0) txId with h | h | h
      · simp only [pollOutcome, h]
        constructor
        · intro hc; exact (PollResult.noConfusion hc)
        · intro hr
          have h0 := hr 0 (Nat.succ_pos n)
          rw [h] at h0
          exact (PollStep.noConfusion h0)
      · simp only [pollOutcome, h]
        constructor
        · intro hc; exact (PollResult.noConfusion hc)
        · intro hr
          have h0 := hr 0 (Nat.succ_pos n)
          rw [h] at h0
          exact (PollStep.noConfusion h0)
      · simp only [pollOutcome, h]
        rw [ih (fun k => dbs (k + 1))]
        constructor
        · intro hr k hk
          cases k with
          | zero => exact h
          | succ m => exact hr m (Nat.lt_of_succ_lt_succ hk)
        · intro hr k hk
          exact hr (k + 1) (Nat.succ_lt_succ hk)

/-- C3 witness: the characterization applied to a transaction that stays
`stk_sent`: after 5 checks the poller is still scheduling. -/
theorem c3_amended_poll_witness :
    pollOutcome (fun _ => dbC3) 1 5 = PollResult.stillPolling :=
  (c3_amended_poll_characterization (fun _ => dbC3) 1 5).mpr (by decide)

/-- C6: a failure/cancellation callback (`ResultCode ≠ 0`) changes only the
matched transaction's status (to `failed`); holdings, coins (supply, holder
count and price) and commissions are untouched. -/
theorem c6_failed_transition_only_status (db : DB) (cb : StkCallback) (tx : Transaction)
    (hfind : findTxByReceipt db.transactions cb.checkoutRequestID = some tx)
    (hrc : cb.resultCode ≠ 0) :
    (handleCallback db (some cb)).2.holdings = db.holdings ∧
    (handleCallback db (some cb)).2.coins = db.coins ∧
    (handleCallback db (some cb)).2.commissions = db.commissions ∧
    (handleCallback db (some cb)).2.transactions =
      db.transactions.map fun t =>
        if t.id = tx.id then { t with status := TxStatus.failed } else t := by
  simp [handleCallback, hfind, hrc]

/-- C6 witness: the cancellation callback `pC6` against `dbC6` leaves the
ledger untouched and rewrites only the transaction's status. -/
theorem c6_failed_transition_witness :
    pC6.resultCode ≠ 0 ∧
    (handleCallback dbC6 (some pC6)).2.holdings = dbC6.holdings ∧
    (handleCallback dbC6 (some pC6)).2.coins = dbC6.coins := by
  refine ⟨by decide, ?_, ?_⟩
  · exact (c6_failed_transition_only_status dbC6 pC6
      (mkTx 1 7 3 TxKind.buy 50 2 100 TxStatus.stk_sent (some "ws_CO_6"))
      (by decide) (by decide)).1
  · exact (c6_failed_transition_only_status dbC6 pC6
      (mkTx 1 7 3 TxKind.buy 50 2 100 TxStatus.stk_sent (some "ws_CO_6"))
      (by decide) (by decide)).2.1

/-- C7: the callback handler returns the success acknowledgement envelope
for every input, and performs no mutation when the payload is malformed
(no `Body.stkCallback`) or its reference matches no transaction. -/
theorem c7_always_acknowledges (db : DB) (body : Option StkCallback) :
    (handleCallback db body).1 = ackAccepted ∧
    ((body = none ∨ ∃ cb, body = some cb ∧
        findTxByReceipt db.transactions cb.checkoutRequestID = none) →
      (handleCallback db body).2 = db) := by
  constructor
  · cases body with
    | none => rfl
    | some cb =>
        cases hfind : findTxByReceipt db.transactions cb.checkoutRequestID with
        | none => simp [handleCallback, hfind]
        | some tx =>
            by_cases hrc : cb.resultCode = 0 <;> simp [handleCallback, hfind, hrc]
  · rintro (rfl | ⟨cb, rfl, hfind⟩)
    · rfl
    · simp [handleCallback, hfind]

/-- C7 witness: a malformed payload and a success payload matching no
transaction are both acknowledged without any mutation. -/
theorem c7_always_acknowledges_witness :
    (handleCallback db0 none).1 = ackAccepted ∧
    (handleCallback db0 none).2 = db0 ∧
    (handleCallback dbC3 (some (mkFailPayload "ws_CO_unknown" 0))).2 = dbC3 :=
  ⟨(c7_always_acknowledges db0 none).1,
   (c7_always_acknowledges db0 none).2 (Or.inl rfl),
   (c7_always_acknowledges dbC3 (some (mkFailPayload "ws_CO_unknown" 0))).2
     (Or.inr ⟨mkFailPayload "ws_CO_unknown" 0, rfl, by decide⟩)⟩

/-- C2 (amended): handling a callback twice equals handling it once,
provided the payload's reference matches at most one stored transaction and,
for a success payload, the extracted receipt number differs from the
`CheckoutRequestID` (the re-invocation is then a no-op because completion
overwrote the lookup key; a failure payload merely re-writes `failed`). -/
theorem c2_amended_idempotent (db : DB) (cb : StkCallback)
    (huniq : db.transactions.countP
        (fun t => decide (t.mpesa_receipt = some cb.checkoutRequestID)) ≤ 1)
    (hne : cb.resultCode = 0 →
        extractReceipt cb.callbackMetadata ≠ cb.checkoutRequestID) :
    (handleCallback (handleCallback db (some cb)).2 (some cb)).2 =
      (handleCallback db (some cb)).2 := by
  cases hfind : findTxByReceipt db.transactions cb.checkoutRequestID with
  | none =>
      have h1 : (handleCallback db (some cb)).2 = db := by
        simp [handleCallback, hfind]
      rw [h1, h1]
  | some tx =>
      by_cases hrc : cb.resultCode = 0
      · have hd1 : (handleCallback db (some cb)).2 =
            settleSuccess db tx (extractReceipt cb.callbackMetadata) := by
          simp [handleCallback, hfind, hrc]
        have hnone : findTxByReceipt
            (settleSuccess db tx (extractReceipt cb.callbackMetadata)).transactions
            cb.checkoutRequestID = none :=
          findTxByReceipt_after_overwrite db.transactions cb.checkoutRequestID
            (extractReceipt cb.callbackMetadata) tx huniq hfind (hne hrc)
        rw [hd1]
        simp [handleCallback, hnone]
      · have hd1 : (handleCallback db (some cb)).2 =
            { db with transactions := db.transactions.map fun t =>
                if t.id = tx.id then { t with status := TxStatus.failed } else t } := by
          simp [handleCallback, hfind, hrc]
        have hfind2 : findTxByReceipt
            (db.transactions.map fun t =>
              if t.id = tx.id then { t with status := TxStatus.failed } else t)
            cb.checkoutRequestID
            = some { tx with status := TxStatus.failed } := by
          rw [findTxByReceipt, List.find?_map]
          have hcomp : ((fun t : Transaction =>
                decide (t.mpesa_receipt = some cb.checkoutRequestID)) ∘
              fun t : Transaction =>
                if t.id = tx.id then { t with status := TxStatus.failed } else t)
              = fun t : Transaction =>
                decide (t.mpesa_receipt = some cb.checkoutRequestID) := by
            funext t
            by_cases h : t.id = tx.id <;> simp [h]
          rw [hcomp]
          rw [show db.transactions.find?
              (fun t => decide (t.mpesa_receipt = some cb.checkoutRequestID)) = some tx
            from hfind]
          simp
        have hmaps : ((db.transactions.map fun t =>
              if t.id = tx.id then { t with status := TxStatus.failed } else t).map fun t =>
              if t.id = tx.id then { t with status := TxStatus.failed } else t)
            = db.transactions.map fun t =>
                if t.id = tx.id then { t with status := TxStatus.failed } else t := by
          rw [List.map_map]
          refine List.map_congr_left ?_
          intro t _
          by_cases h : t.id = tx.id <;> simp [h]
        rw [hd1]
        simp only [handleCallback, hfind2, if_neg hrc]
        simp only [DB.mk.injEq, and_true]
        exact hmaps

/-- C2 witness: the idempotence theorem applied to `dbW2` with an ordinary
success payload whose receipt differs from the checkout request id. -/
theorem c2_amended_idempotent_witness :
    dbW2.transactions.countP
        (fun t => decide (t.mpesa_receipt = some pW2.checkoutRequestID)) ≤ 1 ∧
    (handleCallback (handleCallback dbW2 (some pW2)).2 (some pW2)).2 =
      (handleCallback dbW2 (some pW2)).2 :=
  ⟨by decide, c2_amended_idempotent dbW2 pW2 (by decide) (fun _ => by decide)⟩

/-- C4 (amended): settling a completed buy increments the coin's circulating
supply by the transaction amount, but it neither recomputes the coin's price
(no bonding-curve pricer exists in the code; every coin's `price` is exactly
what it was) nor records any commission (the commissions table is untouched
— indeed no such table exists in the schema). -/
theorem c4_amended_supply_only (db : DB) (cb : StkCallback) (tx : Transaction) (c : Coin)
    (hfind : findTxByReceipt db.transactions cb.checkoutRequestID = some tx)
    (hrc : cb.resultCode = 0)
    (hcoin : findCoin db.coins tx.coin_id = some c) :
    (handleCallback db (some cb)).2.coins.map Coin.price = db.coins.map Coin.price ∧
    (handleCallback db (some cb)).2.commissions = db.commissions ∧
    ∀ k ∈ (handleCallback db (some cb)).2.coins, k.id = tx.coin_id →
      k.circulating_supply = c.circulating_supply + tx.amount := by
  have hd1 : (handleCallback db (some cb)).2 =
      settleSuccess db tx (extractReceipt cb.callbackMetadata) := by
    simp [handleCallback, hfind, hrc]
  rw [hd1]
  refine ⟨?_, rfl, ?_⟩
  · simp only [settleSuccess, hcoin]
    rw [List.map_map]
    refine List.map_congr_left ?_
    intro k _
    by_cases h : k.id = tx.coin_id <;> simp [h]
  · simp only [settleSuccess, hcoin]
    intro k hk hid
    rcases List.mem_map.mp hk with ⟨k0, _, rfl⟩
    by_cases h : k0.id = tx.coin_id
    · simp [h]
    · rw [if_neg h] at hid ⊢
      exact absurd hid h

/-- C4 witness: the amended theorem applied to the first-time buy of `dbC4`:
the coin prices are untouched by the settlement. -/
theorem c4_amended_supply_only_witness :
    findCoin dbC4.coins 3 = some (mkCoin 3 1000 0 1) ∧
    (handleCallback dbC4 (some pC4)).2.coins.map Coin.price = dbC4.coins.map Coin.price :=
  ⟨by decide,
   (c4_amended_supply_only dbC4 pC4
      (mkTx 1 7 3 TxKind.buy 50 2 100 TxStatus.stk_sent (some "ws_CO_4"))
      (mkCoin 3 1000 0 1) (by decide) (by decide) (by decide)).1⟩

/-- C5 (amended): trade initiation leaves holdings unchanged for a buy, but
the sell path mutates the holding directly while its transaction is still
`pending`: the holding's amount is rewritten to `userHolding − amount`
(the row is deleted when that remainder is ≤ 0), and every transaction the
sell path adds is a `pending` sell. -/
theorem c5_amended_sell_mutates_directly (db : DB) (u c : Nat)
    (amtB priceB : ℚ) (phB : String) (amt price uh : ℚ) (ph : String)
    (hle : amt ≤ uh) (hph : ¬ ph.data.length < 10) :
    (handleBuy db u c amtB priceB phB).holdings = db.holdings ∧
    ((handleSell db u c amt price uh ph).holdings =
      if uh - amt ≤ 0 then
        db.holdings.filter (fun h => !decide (h.user_id = u ∧ h.coin_id = c))
      else
        db.holdings.map fun h =>
          if h.user_id = u ∧ h.coin_id = c then { h with amount := uh - amt } else h) ∧
    ∀ t ∈ (handleSell db u c amt price uh ph).transactions,
      t ∈ db.transactions ∨ (t.kind = TxKind.sell ∧ t.status = TxStatus.pending) := by
  have hgt : ¬ amt > uh := not_lt.mpr hle
  refine ⟨?_, ?_, ?_⟩
  · simp only [handleBuy]
    split <;> split <;> rfl
  · simp only [handleSell, if_neg hgt, if_neg hph]
    split <;> rfl
  · simp only [handleSell, if_neg hgt, if_neg hph]
    split <;>
      · intro t ht
        rcases List.mem_append.mp ht with h | h
        · exact Or.inl h
        · rw [List.mem_singleton] at h
          subst h
          exact Or.inr ⟨rfl, rfl⟩

/-- C5 witness: the amended theorem applied to `dbC5`: a buy initiation
leaves the holding alone, and every transaction the sell path of
`handleSell dbC5 7 3 40 2 100` inserts is a pending sell. -/
theorem c5_amended_sell_witness :
    (handleBuy dbC5 7 3 10 2 "0712345678").holdings = dbC5.holdings ∧
    ∀ t ∈ (handleSell dbC5 7 3 40 2 100 "0712345678").transactions,
      t ∈ dbC5.transactions ∨ (t.kind = TxKind.sell ∧ t.status = TxStatus.pending) :=
  ⟨(c5_amended_sell_mutates_directly dbC5 7 3 10 2 "0712345678" 40 2 100 "0712345678"
      (by norm_num) (by decide)).1,
   (c5_amended_sell_mutates_directly dbC5 7 3 10 2 "0712345678" 40 2 100 "0712345678"
      (by norm_num) (by decide)).2.2⟩

/-- C8: settling a completed buy into an existing holding rewrites it with
amount `old_amount + bought_amount` and volume-weighted average price
`(old_amount × old_avg + bought_amount × trade_price) /
(old_amount + bought_amount)`, leaving all other holdings untouched. -/
theorem c8_weighted_average_merge (db : DB) (cb : StkCallback) (tx : Transaction)
    (h : Holding)
    (hrc : cb.resultCode = 0)
    (hfind : findTxByReceipt db.transactions cb.checkoutRequestID = some tx)
    (hkind : tx.kind = TxKind.buy)
    (hhold : findHolding db.holdings tx.user_id tx.coin_id = some h) :
    (handleCallback db (some cb)).2.holdings =
      db.holdings.map fun g =>
        if g.id = h.id then
          { g with amount := h.amount + tx.amount,
                   average_buy_price :=
                     (h.amount * h.average_buy_price + tx.amount * tx.price_per_coin) /
                       (h.amount + tx.amount) }
        else g := by
  have hd1 : (handleCallback db (some cb)).2 =
      settleSuccess db tx (extractReceipt cb.callbackMetadata) := by
    simp [handleCallback, hfind, hrc]
  rw [hd1]
  simp only [settleSuccess, hhold]
  refine List.map_congr_left ?_
  intro g _
  by_cases hg : g.id = h.id <;> simp [hg, mul_comm]

/-- C8 witness: buying 100 units at price 20 on top of a holding of 100
units at average price 10 yields a holding of 200 units at average price
15, exactly as the claim's example requires. -/
theorem c8_weighted_average_witness :
    findHolding dbC8.holdings 7 3 = some (mkHolding 1 7 3 100 10) ∧
    (handleCallback dbC8 (some pC8)).2.holdings = [mkHolding 1 7 3 200 15] :=
  ⟨by decide,
   (c8_weighted_average_merge dbC8 pC8
      (mkTx 1 7 3 TxKind.buy 100 20 2000 TxStatus.stk_sent (some "ws_CO_8"))
      (mkHolding 1 7 3 100 10) (by decide) (by decide) (by decide) (by decide)).trans
     (by simp [dbC8, mkDB, mkHolding, mkTx]; norm_num)⟩

/-- C10 (amended): on a success callback the matched transaction's
`mpesa_receipt` is overwritten with the receipt extracted from the metadata
(`""` when the metadata list is absent), and — provided the extracted
receipt differs from the `CheckoutRequestID` and the reference matched at
most one transaction — the transaction can no longer be looked up by its
original external reference. -/
theorem c10_amended_receipt_overwrite (db : DB) (cb : StkCallback) (tx : Transaction)
    (huniq : db.transactions.countP
        (fun t => decide (t.mpesa_receipt = some cb.checkoutRequestID)) ≤ 1)
    (hrc : cb.resultCode = 0)
    (hfind : findTxByReceipt db.transactions cb.checkoutRequestID = some tx)
    (hne : extractReceipt cb.callbackMetadata ≠ cb.checkoutRequestID) :
    extractReceipt none = "" ∧
    (∀ t ∈ (handleCallback db (some cb)).2.transactions, t.id = tx.id →
        t.mpesa_receipt = some (extractReceipt cb.callbackMetadata)) ∧
    findTxByReceipt (handleCallback db (some cb)).2.transactions
      cb.checkoutRequestID = none := by
  have hd1 : (handleCallback db (some cb)).2 =
      settleSuccess db tx (extractReceipt cb.callbackMetadata) := by
    simp [handleCallback, hfind, hrc]
  refine ⟨rfl, ?_, ?_⟩
  · rw [hd1]
    simp only [settleSuccess]
    intro t ht hid
    rcases List.mem_map.mp ht with ⟨t0, _, rfl⟩
    by_cases h0 : t0.id = tx.id
    · simp [h0]
    · rw [if_neg h0] at hid ⊢
      exact absurd hid h0
  · rw [hd1]
    exact findTxByReceipt_after_overwrite db.transactions cb.checkoutRequestID
      (extractReceipt cb.callbackMetadata) tx huniq hfind hne

/-- C10 witness: the amended theorem applied to `dbW10`: after a success
callback with receipt `QZX300`, looking up the original reference
`ws_CO_30` finds nothing. -/
theorem c10_amended_receipt_witness :
    extractReceipt pW10.callbackMetadata = "QZX300" ∧
    findTxByReceipt (handleCallback dbW10 (some pW10)).2.transactions
      "ws_CO_30" = none :=
  ⟨by decide,
   (c10_amended_receipt_overwrite dbW10 pW10
      (mkTx 1 7 3 TxKind.buy 50 2 100 TxStatus.stk_sent (some "ws_CO_30"))
      (by decide) (by decide) (by decide) (by decide)).2.2⟩

end NobleCoin
